import Mathlib

/-!
# Student-records application (`src/app.js`)

A shallow embedding of the Express application in `src/app.js`: the student
and user collections, the session guard, the route table in registration
order, the request handlers, and the fixed-layout report renderer.

Modelling conventions.

* A JavaScript value that may be `undefined` is an `Option String`; request
  parameters and body fields are string-valued.
* The two MongoDB collections are lists in natural (insertion) order;
  `findOne` yields the first matching document of that order.
* A handler produces a `Step`: it passes control on (`next`), completes the
  response (`done`), or the request lies outside the modelled fragment
  (`outside`: a query parameter or regular expression whose treatment is
  decided inside a library and is not fixed here).
* Library services are parameters (`Env`): the bcrypt functions, the
  directory of the script, and the case folding and line terminators of the
  regular-expression engine.
* The body-parsing, static-file and session middleware of lines 16-26 are
  given services: a `Request` carries the parsed query and body, a `World`
  carries the session of the requesting client, and the static-file
  middleware is taken to pass a request for a route path on to the routes.
* The file system accepts the writes of the upload middleware. A report is
  written when the directory of its path exists (`World.dirs`); a failed
  write of a report lies outside the modelled fragment.
* A pdfkit document is a readable stream: a callback registered on it runs
  only for an event that readable streams emit (`readableEvents`).
-/

namespace StudentApp

/-! ## Data model (lines 59-96) -/

/-- Rendering of a value inside a template literal: an absent value prints as
the word undefined. -/
def jsStr : Option String → String
  | some s => s
  | none => "undefined"

/-- The student document of `studentSchema` (lines 59-88): 28 string paths,
each possibly absent. -/
structure Student where
  srNo : Option String
  collegeName : Option String
  zone : Option String
  name : Option String
  email : Option String
  contactNumber : Option String
  tenthPercentage : Option String
  tenthYearOfPassing : Option String
  twelfthPercentage : Option String
  twelfthYearOfPassing : Option String
  diplomaPercentage : Option String
  diplomaYOP : Option String
  degree : Option String
  stream : Option String
  degreePercentage : Option String
  degreeYOP : Option String
  pgDegree : Option String
  pgStream : Option String
  postGradPercentage : Option String
  pgYOP : Option String
  currentBacklog : Option String
  remarks : Option String
  gender : Option String
  btechCollegeState : Option String
  btechRollNumber : Option String
  referBy : Option String
  pdf : Option String
  programType : Option String
  deriving DecidableEq, Repr

/-- The paths of `studentSchema`, in declaration order. -/
inductive Field where
  | srNo | collegeName | zone | name | email | contactNumber
  | tenthPercentage | tenthYearOfPassing | twelfthPercentage | twelfthYearOfPassing
  | diplomaPercentage | diplomaYOP | degree | stream | degreePercentage | degreeYOP
  | pgDegree | pgStream | postGradPercentage | pgYOP | currentBacklog | remarks
  | gender | btechCollegeState | btechRollNumber | referBy | pdf | programType
  deriving DecidableEq, Repr

/-- The key under which a schema path is read from a submitted object. -/
def Field.key : Field → String
  | .srNo => "srNo"
  | .collegeName => "collegeName"
  | .zone => "zone"
  | .name => "name"
  | .email => "email"
  | .contactNumber => "contactNumber"
  | .tenthPercentage => "tenthPercentage"
  | .tenthYearOfPassing => "tenthYearOfPassing"
  | .twelfthPercentage => "twelfthPercentage"
  | .twelfthYearOfPassing => "twelfthYearOfPassing"
  | .diplomaPercentage => "diplomaPercentage"
  | .diplomaYOP => "diplomaYOP"
  | .degree => "degree"
  | .stream => "stream"
  | .degreePercentage => "degreePercentage"
  | .degreeYOP => "degreeYOP"
  | .pgDegree => "pgDegree"
  | .pgStream => "pgStream"
  | .postGradPercentage => "postGradPercentage"
  | .pgYOP => "pgYOP"
  | .currentBacklog => "currentBacklog"
  | .remarks => "remarks"
  | .gender => "gender"
  | .btechCollegeState => "btechCollegeState"
  | .btechRollNumber => "btechRollNumber"
  | .referBy => "referBy"
  | .pdf => "pdf"
  | .programType => "programType"

/-- Reading a path of a student document. -/
def Student.get (st : Student) : Field → Option String
  | .srNo => st.srNo
  | .collegeName => st.collegeName
  | .zone => st.zone
  | .name => st.name
  | .email => st.email
  | .contactNumber => st.contactNumber
  | .tenthPercentage => st.tenthPercentage
  | .tenthYearOfPassing => st.tenthYearOfPassing
  | .twelfthPercentage => st.twelfthPercentage
  | .twelfthYearOfPassing => st.twelfthYearOfPassing
  | .diplomaPercentage => st.diplomaPercentage
  | .diplomaYOP => st.diplomaYOP
  | .degree => st.degree
  | .stream => st.stream
  | .degreePercentage => st.degreePercentage
  | .degreeYOP => st.degreeYOP
  | .pgDegree => st.pgDegree
  | .pgStream => st.pgStream
  | .postGradPercentage => st.postGradPercentage
  | .pgYOP => st.pgYOP
  | .currentBacklog => st.currentBacklog
  | .remarks => st.remarks
  | .gender => st.gender
  | .btechCollegeState => st.btechCollegeState
  | .btechRollNumber => st.btechRollNumber
  | .referBy => st.referBy
  | .pdf => st.pdf
  | .programType => st.programType

/-- The constructor `new Student(obj)`: the document keeps the schema paths
of the object and nothing else. The `_id` that the store assigns is not
modelled; documents are told apart by their position in the collection. -/
def Student.ofObject (obj : String → Option String) : Student where
  srNo := obj "srNo"
  collegeName := obj "collegeName"
  zone := obj "zone"
  name := obj "name"
  email := obj "email"
  contactNumber := obj "contactNumber"
  tenthPercentage := obj "tenthPercentage"
  tenthYearOfPassing := obj "tenthYearOfPassing"
  twelfthPercentage := obj "twelfthPercentage"
  twelfthYearOfPassing := obj "twelfthYearOfPassing"
  diplomaPercentage := obj "diplomaPercentage"
  diplomaYOP := obj "diplomaYOP"
  degree := obj "degree"
  stream := obj "stream"
  degreePercentage := obj "degreePercentage"
  degreeYOP := obj "degreeYOP"
  pgDegree := obj "pgDegree"
  pgStream := obj "pgStream"
  postGradPercentage := obj "postGradPercentage"
  pgYOP := obj "pgYOP"
  currentBacklog := obj "currentBacklog"
  remarks := obj "remarks"
  gender := obj "gender"
  btechCollegeState := obj "btechCollegeState"
  btechRollNumber := obj "btechRollNumber"
  referBy := obj "referBy"
  pdf := obj "pdf"
  programType := obj "programType"

/-- The user document of `userSchema` (lines 90-93): a username under a unique
index and the stored password hash. -/
structure User where
  username : Option String
  password : String
  deriving DecidableEq, Repr

/-- Library services and constants the application is run with. -/
structure Env where
  /-- The directory of the script, `__dirname`. -/
  dirname : String
  /-- The hash `bcrypt.hash(password, 10)` yields. -/
  bcryptHash : String → String
  /-- The verdict of `bcrypt.compare(password, hash)`. -/
  bcryptCompare : String → String → Bool
  /-- Case folding of the regular-expression engine under the flag `i`. -/
  canonicalize : Char → Char
  /-- The characters that the wildcard `.` of the engine does not match. -/
  lineTerminator : Char → Bool

/-- The state a request runs against and may change. -/
structure World where
  /-- The students collection, in natural order. -/
  students : List Student
  /-- The users collection, in natural order. -/
  users : List User
  /-- The value of `req.session.user` for the requesting client. -/
  session : Option User
  /-- Paths of the files stored by the upload middleware. -/
  uploads : List String
  /-- Files written by the report generator: path and text lines. -/
  reports : List (String × List String)
  /-- The directories that exist, each under its normalised path. -/
  dirs : List String
  /-- Whether the database answers; when it does not, every store operation
  throws. -/
  dbUp : Bool
  /-- The value of `Date.now()`. -/
  clock : Nat

inductive Method where
  | GET | POST
  deriving DecidableEq, Repr

/-- An incoming request after body parsing. -/
structure Request where
  method : Method
  /-- The request path, as the router compares it with a route path. -/
  path : String
  /-- The parsed query string, `req.query`. -/
  query : List (String × String)
  /-- The parsed body fields, `req.body`. -/
  body : List (String × String)
  /-- The original name of the file part sent under the field `pdf`, if any. -/
  filePart : Option String
  /-- The storage path in `req.file`, set by the upload middleware. -/
  file : Option String

/-- The responses the application sends. -/
inductive Response where
  /-- The call `res.redirect(location)`. -/
  | redirect (location : String)
  /-- The call `res.sendFile(path)`. -/
  | sendFile (path : String)
  /-- The call `res.status(status).send(body)`; a bare `res.send` has status 200. -/
  | send (status : Nat) (body : String)
  /-- The call `res.json(student)` for one document. -/
  | jsonRecord (student : Student)
  /-- The call `res.json(students)` for an array of documents. -/
  | jsonList (students : List Student)
  /-- The call `res.download(filePath, fileName)`. -/
  | download (filePath fileName : String)
  /-- The answer of the framework when no route handles the request. -/
  | noRoute
  /-- No response is sent: the handler returned without answering and without
  passing control on, and the request stays open. -/
  | noResponse
  deriving DecidableEq, Repr

/-- What a middleware or handler does with a request. -/
inductive Step where
  | next (req : Request) (w : World)
  | done (resp : Response) (w : World)
  | outside

/-! ## Paths (`path.join` of the platform library, POSIX flavour) -/

/-- The segments of a path between its separators. -/
def splitSlash : List Char → List (List Char)
  | [] => [[]]
  | c :: cs =>
    if c = '/' then [] :: splitSlash cs
    else
      match splitSlash cs with
      | seg :: rest => (c :: seg) :: rest
      | [] => [[c]]

/-- One segment of path normalisation, on the stack of kept segments (top
first): empty and single-dot segments vanish, a double dot removes the
segment before it, or is kept when nothing can be removed and the path is
relative. -/
def normStep (allowAboveRoot : Bool) (stack : List (List Char)) (seg : List Char) :
    List (List Char) :=
  if seg = [] ∨ seg = ['.'] then stack
  else if seg = ['.', '.'] then
    match stack with
    | [] => if allowAboveRoot then [seg] else []
    | top :: rest =>
      if top = ['.', '.'] then (if allowAboveRoot then seg :: stack else stack) else rest
  else seg :: stack

/-- Segments joined by the separator. -/
def joinSegs : List (List Char) → List Char
  | [] => []
  | [s] => s
  | s :: t :: r => s ++ '/' :: joinSegs (t :: r)

/-- The function `path.normalize`. -/
def normalizeChars (p : List Char) : List Char :=
  if p = [] then ['.']
  else
    let isAbsolute := p.head? = some '/'
    let trailing := p.getLast? = some '/'
    let stack := (splitSlash p).foldl (normStep (!isAbsolute)) []
    let body := joinSegs stack.reverse
    if body = [] then
      if isAbsolute then ['/'] else if trailing then ['.', '/'] else ['.']
    else
      (if isAbsolute then ['/'] else []) ++ body ++ (if trailing then ['/'] else [])

/-- The function `path.join`: the non-empty arguments, joined by the
separator and normalised. -/
def pathJoin (parts : List String) : String :=
  let args := (parts.map String.data).filter (fun a => a ≠ [])
  if args = [] then "." else String.mk (normalizeChars (joinSegs args))

/-! ## Regular expressions (`new RegExp(pattern, 'i')`, a fragment) -/

/-- The syntax characters of the pattern language. -/
def patternSpecials : List Char :=
  ['^', '$', '\\', '.', '*', '+', '?', '(', ')', '[', ']', '\x7b', '\x7d', '|']

/-- The atoms of the modelled fragment: a literal character and the wildcard. -/
inductive Atom where
  | char (c : Char)
  | any
  deriving DecidableEq, Repr

/-- The outcome of constructing a regular expression from a pattern. -/
inductive Compiled where
  /-- The pattern is a sequence of literals and wildcards. -/
  | ok (atoms : List Atom)
  /-- The constructor throws: the pattern starts with a quantifier, which has
  nothing to repeat. -/
  | invalidPattern
  /-- The pattern uses constructs outside the modelled fragment. -/
  | unsupported
  deriving DecidableEq, Repr

def toAtom (c : Char) : Atom :=
  if c = '.' then Atom.any else Atom.char c

/-- The constructor `new RegExp(pattern, 'i')` on the modelled fragment. -/
def compileRegExp (pattern : List Char) : Compiled :=
  match pattern with
  | [] => .ok []
  | c :: _ =>
    if c = '*' ∨ c = '+' ∨ c = '?' then .invalidPattern
    else if pattern.all (fun x => x = '.' ∨ x ∉ patternSpecials) then .ok (pattern.map toAtom)
    else .unsupported

def atomMatches (env : Env) : Atom → Char → Bool
  | .char c, x => env.canonicalize x == env.canonicalize c
  | .any, x => !env.lineTerminator x

/-- The atoms match a run of characters starting at the head of the subject. -/
def matchHere (env : Env) : List Atom → List Char → Bool
  | [], _ => true
  | _ :: _, [] => false
  | a :: as, x :: xs => atomMatches env a x && matchHere env as xs

/-- An unanchored match: the atoms match starting at some position. -/
def regexSearch (env : Env) (re : List Atom) : List Char → Bool
  | [] => matchHere env re []
  | x :: xs => matchHere env re (x :: xs) || regexSearch env re xs

/-! ## Store queries -/

/-- The query `Student.findOne` with the condition srNo: the first document
in natural order whose `srNo` is the given string. -/
def findStudent (students : List Student) (srNo : String) : Option Student :=
  students.find? (fun st => st.srNo = some srNo)

/-- The query `User.findOne` with the condition username. -/
def findUser (users : List User) (username : String) : Option User :=
  users.find? (fun u => u.username = some username)

/-- A string-valued parameter that passes an `if (value)` test: present and
not the empty string. -/
def truthy : Option String → Option String
  | some s => if s = "" then none else some s
  | none => none

/-- The function `path.dirname`: the path without its last segment and the
separator before it, trailing separators being ignored. -/
def pathDirname (p : String) : String :=
  match p.data with
  | [] => "."
  | first :: others =>
    let hasRoot := first = '/'
    let afterTrailing := others.reverse.dropWhile (fun c => c = '/')
    let afterBase := afterTrailing.dropWhile (fun c => c ≠ '/')
    match afterBase with
    | [] => if hasRoot then "/" else "."
    | _ :: before =>
      if hasRoot ∧ before = [] then "//" else String.mk (first :: before.reverse)

/-- The events a readable stream of the platform library emits. A pdfkit
document is such a stream; the event finish belongs to writable streams and is
not among them. -/
def readableEvents : List String :=
  ["close", "data", "end", "error", "pause", "readable", "resume"]

/-- Reading back a file of the reports store. -/
def readFile (files : List (String × List String)) (path : String) : Option (List String) :=
  files.lookup path

/-- Writing a file through `fs.createWriteStream` into an existing directory:
the file is created or replaced. -/
def writeFile (files : List (String × List String)) (path : String) (content : List String) :
    List (String × List String) :=
  (path, content) :: files.filter (fun e => e.1 ≠ path)

/-! ## Session guard (lines 99-104) -/

/-- The middleware `isAuthenticated`. -/
def isAuthenticated (req : Request) (w : World) : Step :=
  if w.session.isSome then .next req w
  else .done (.redirect "/login") w

/-! ## Upload intake (lines 47-56) -/

/-- The middleware `upload.single('pdf')`: a file part is stored in the
uploads directory under the time of ingestion, a dash and its original name,
and its path is put on the request. -/
def uploadSinglePdf (req : Request) (w : World) : Step :=
  match req.filePart with
  | none => .next req w
  | some originalname =>
    let filename := toString w.clock ++ "-" ++ originalname
    let path := pathJoin ["uploads/", filename]
    .next { req with file := some path } { w with uploads := path :: w.uploads }

/-! ## Handlers -/

/-- The static view handlers (lines 107-129). -/
def sendView (env : Env) (file : String) (w : World) : Step :=
  .done (.sendFile (pathJoin [env.dirname, "views", file])) w

/-- The handler of POST /signup (lines 131-142). -/
def postSignup (env : Env) (req : Request) (w : World) : Step :=
  let username := req.body.lookup "username"
  match req.body.lookup "password" with
  | none => .done (.send 500 "Error signing up") w
  | some password =>
    let hashedPassword := env.bcryptHash password
    let user : User := { username := username, password := hashedPassword }
    if !w.dbUp || w.users.any (fun u => u.username = username) then
      .done (.send 500 "Error signing up") w
    else
      .done (.send 200 "User registered successfully") { w with users := w.users ++ [user] }

/-- The handler of POST /login (lines 144-163). -/
def postLogin (env : Env) (req : Request) (w : World) : Step :=
  let password := req.body.lookup "password"
  if !w.dbUp then .done (.send 500 "Error logging in") w
  else
    match req.body.lookup "username" with
    | none => .outside
    | some username =>
      match findUser w.users username with
      | some user =>
        match password with
        | none => .done (.send 500 "Error logging in") w
        | some password =>
          if env.bcryptCompare password user.password then
            .done (.redirect "/") { w with session := some user }
          else
            .done (.send 401 "Invalid credentials") w
      | none => .done (.send 401 "User not found") w

/-- The handler of POST /student/register (lines 165-176). -/
def postRegister (req : Request) (w : World) : Step :=
  let studentData := req.body
  let pdfPath := match req.file with
    | some path => path
    | none => ""
  let student := Student.ofObject
    (fun key => if key = "pdf" then some pdfPath else studentData.lookup key)
  if !w.dbUp then .done (.send 500 "Error registering student") w
  else .done (.send 200 "Student registered successfully")
    { w with students := w.students ++ [student] }

/-- The handler of GET /student (lines 178-191). -/
def getStudent (req : Request) (w : World) : Step :=
  if !w.dbUp then .done (.send 500 "Error retrieving student") w
  else
    match req.query.lookup "srNo" with
    | none => .outside
    | some srNo =>
      match findStudent w.students srNo with
      | some student => .done (.jsonRecord student) w
      | none => .done (.send 404 "Student not found") w

/-- The condition on `collegeName` in the filter object: a regular expression
built from the parameter when the parameter is truthy. -/
inductive CollegeFilter where
  | absent
  | regex (atoms : List Atom)
  | throws
  | unsupported

def collegeFilter (filterCollege : Option String) : CollegeFilter :=
  match truthy filterCollege with
  | none => .absent
  | some c =>
    match compileRegExp c.data with
    | .ok atoms => .regex atoms
    | .invalidPattern => .throws
    | .unsupported => .unsupported

/-- Whether a document satisfies the filter object of `Student.find`. -/
def matchesFilter (env : Env) (college : Option (List Atom)) (programType : Option String)
    (st : Student) : Bool :=
  (match college with
    | none => true
    | some re =>
      match st.collegeName with
      | some name => regexSearch env re name.data
      | none => false) &&
  (match programType with
    | none => true
    | some p => st.programType = some p)

/-- The handler of GET /student/filter (lines 194-213). -/
def getFilter (env : Env) (req : Request) (w : World) : Step :=
  let filterCollege := req.query.lookup "filterCollege"
  let filterProgramType := req.query.lookup "filterProgramType"
  let find (college : Option (List Atom)) : Step :=
    if !w.dbUp then .done (.send 500 "Error filtering students") w
    else .done (.jsonList (w.students.filter
      (matchesFilter env college (truthy filterProgramType)))) w
  match collegeFilter filterCollege with
  | .absent => find none
  | .regex atoms => find (some atoms)
  | .throws => .done (.send 500 "Error filtering students") w
  | .unsupported =>
    if !w.dbUp then .done (.send 500 "Error filtering students") w else .outside

/-- The document under construction: the lines written so far. -/
abbrev PDFDocument := List String

/-- The call `doc.text(line)`. -/
def PDFDocument.text (doc : PDFDocument) (line : String) : PDFDocument :=
  doc ++ [line]

/-- The text the report generator writes into the document (lines 225-250). -/
def renderReport (student : Student) : PDFDocument :=
  let doc : PDFDocument := []
  let doc := doc.text ("Sr.No: " ++ jsStr student.srNo)
  let doc := doc.text ("College Name: " ++ jsStr student.collegeName)
  let doc := doc.text ("Zone (State Name): " ++ jsStr student.zone)
  let doc := doc.text ("Name: " ++ jsStr student.name)
  let doc := doc.text ("Email ID: " ++ jsStr student.email)
  let doc := doc.text ("Contact Number: " ++ jsStr student.contactNumber)
  let doc := doc.text ("10th %: " ++ jsStr student.tenthPercentage)
  let doc := doc.text ("10th Year of Passing: " ++ jsStr student.tenthYearOfPassing)
  let doc := doc.text ("12th %: " ++ jsStr student.twelfthPercentage)
  let doc := doc.text ("12th Year of Passing: " ++ jsStr student.twelfthYearOfPassing)
  let doc := doc.text ("Diploma %: " ++ jsStr student.diplomaPercentage)
  let doc := doc.text ("Diploma YOP: " ++ jsStr student.diplomaYOP)
  let doc := doc.text ("Degree: " ++ jsStr student.degree)
  let doc := doc.text ("Stream (B.Tech Branch): " ++ jsStr student.stream)
  let doc := doc.text ("Degree %: " ++ jsStr student.degreePercentage)
  let doc := doc.text ("Degree YOP: " ++ jsStr student.degreeYOP)
  let doc := doc.text ("PG Degree: " ++ jsStr student.pgDegree)
  let doc := doc.text ("PG Stream: " ++ jsStr student.pgStream)
  let doc := doc.text ("Post Grad %: " ++ jsStr student.postGradPercentage)
  let doc := doc.text ("PG YOP: " ++ jsStr student.pgYOP)
  let doc := doc.text ("Whether having current backlog: " ++ jsStr student.currentBacklog)
  let doc := doc.text ("Remarks: " ++ jsStr student.remarks)
  let doc := doc.text ("Gender: " ++ jsStr student.gender)
  let doc := doc.text ("Btech College State: " ++ jsStr student.btechCollegeState)
  let doc := doc.text ("Btech Roll Number: " ++ jsStr student.btechRollNumber)
  let doc := doc.text ("Refer By: " ++ jsStr student.referBy)
  doc

/-- The download name of a report (line 221). -/
def reportFileName (srNo : String) : String :=
  "student_report_" ++ srNo ++ ".pdf"

/-- The path a report is written to (line 222). -/
def reportFilePath (env : Env) (srNo : String) : String :=
  pathJoin [env.dirname, "reports", reportFileName srNo]

/-- The report generator, the handler of the second GET /student/report
registration (lines 215-270). The document is piped into the file at the
report path and the 26 lines are written to it; the download is registered on
the event finish of the document (line 253) and is sent only if the document
emits that event. When the directory of the report path does not exist the
write fails, and what follows is outside the modelled fragment. -/
def getReport (env : Env) (req : Request) (w : World) : Step :=
  if !w.dbUp then .done (.send 500 "Error generating report") w
  else
    match req.query.lookup "srNo" with
    | none => .outside
    | some srNo =>
      match findStudent w.students srNo with
      | some student =>
        let fileName := reportFileName srNo
        let filePath := reportFilePath env srNo
        let doc := renderReport student
        if pathDirname filePath ∈ w.dirs then
          let w1 := { w with reports := writeFile w.reports filePath doc }
          if "finish" ∈ readableEvents then .done (.download filePath fileName) w1
          else .done .noResponse w1
        else .outside
      | none => .done (.send 404 "Student not found") w

/-! ## Route table and dispatch (lines 107-270) -/

/-- The middleware and handlers that routes are registered with. -/
inductive Handler where
  | isAuthenticated
  | uploadSinglePdf
  | sendView (file : String)
  | postSignup
  | postLogin
  | postRegister
  | getStudent
  | getFilter
  | getReport
  deriving DecidableEq, Repr

/-- A route registration: method, path and the handlers in call order. -/
structure Route where
  method : Method
  path : String
  handlers : List Handler
  deriving DecidableEq, Repr

/-- The registrations of `app.js`, in source order. -/
def routes : List Route :=
  [ { method := .GET, path := "/", handlers := [.isAuthenticated, .sendView "index.html"] },
    { method := .GET, path := "/login", handlers := [.sendView "login.html"] },
    { method := .GET, path := "/signup", handlers := [.sendView "signup.html"] },
    { method := .GET, path := "/student/register",
      handlers := [.isAuthenticated, .sendView "student_registration.html"] },
    { method := .GET, path := "/student/retrieve",
      handlers := [.isAuthenticated, .sendView "retrieve_student.html"] },
    { method := .GET, path := "/student/report",
      handlers := [.isAuthenticated, .sendView "download_report.html"] },
    { method := .POST, path := "/signup", handlers := [.postSignup] },
    { method := .POST, path := "/login", handlers := [.postLogin] },
    { method := .POST, path := "/student/register",
      handlers := [.isAuthenticated, .uploadSinglePdf, .postRegister] },
    { method := .GET, path := "/student", handlers := [.isAuthenticated, .getStudent] },
    { method := .GET, path := "/student/filter", handlers := [.isAuthenticated, .getFilter] },
    { method := .GET, path := "/student/report", handlers := [.isAuthenticated, .getReport] } ]

/-- Running one handler. -/
def runHandler (env : Env) : Handler → Request → World → Step
  | .isAuthenticated, req, w => isAuthenticated req w
  | .uploadSinglePdf, req, w => uploadSinglePdf req w
  | .sendView file, _, w => sendView env file w
  | .postSignup, req, w => postSignup env req w
  | .postLogin, req, w => postLogin env req w
  | .postRegister, req, w => postRegister req w
  | .getStudent, req, w => getStudent req w
  | .getFilter, req, w => getFilter env req w
  | .getReport, req, w => getReport env req w

/-- Running the handlers of a route in order: each runs when the one before it
passed control on. -/
def runChain (env : Env) : List Handler → Request → World → Step
  | [], req, w => .next req w
  | h :: hs, req, w =>
    match runHandler env h req w with
    | .next req1 w1 => runChain env hs req1 w1
    | .done resp w1 => .done resp w1
    | .outside => .outside

/-- Whether a route is tried for a request. -/
def Route.accepts (r : Route) (req : Request) : Bool :=
  r.method = req.method && r.path = req.path

/-- The router: routes are tried in registration order; the first accepting
route whose handlers complete the response ends the dispatch, and a request no
route completes gets the answer of the framework. The result is `none` for a
request outside the modelled fragment. -/
def dispatch (env : Env) : List Route → Request → World → Option (Response × World)
  | [], _, w => some (.noRoute, w)
  | r :: rs, req, w =>
    if r.accepts req then
      match runChain env r.handlers req w with
      | .next req1 w1 => dispatch env rs req1 w1
      | .done resp w1 => some (resp, w1)
      | .outside => none
    else dispatch env rs req w

/-- The application: dispatch over the route table. -/
def app (env : Env) (req : Request) (w : World) : Option (Response × World) :=
  dispatch env routes req w

/-- Whether a route is registered with the session guard as its first handler. -/
def Route.guarded (r : Route) : Bool :=
  r.handlers.head? = some Handler.isAuthenticated

/-! ## Statements of the specification -/

/-- Containment of `c` in `name` as a substring, compared case-insensitively
under the given case folding. -/
def containsIgnoreCase (fold : Char → Char) (c name : String) : Prop :=
  (c.data.map fold) <:+: (name.data.map fold)

instance (fold : Char → Char) (c name : String) : Decidable (containsIgnoreCase fold c name) :=
  inferInstanceAs (Decidable ((c.data.map fold) <:+: (name.data.map fold)))

/-- The records the college filter is specified to return: those whose college
name contains the given string case-insensitively. -/
def collegeContains (fold : Char → Char) (c : String) (st : Student) : Bool :=
  match st.collegeName with
  | some name => decide (containsIgnoreCase fold c name)
  | none => false

/-- The labels of the report in the order the specification fixes, each with
the field whose value its line carries. -/
def specReportLayout : List (String × Field) :=
  [ ("Sr.No", .srNo), ("College Name", .collegeName), ("Zone (State Name)", .zone),
    ("Name", .name), ("Email ID", .email), ("Contact Number", .contactNumber),
    ("10th %", .tenthPercentage), ("10th Year of Passing", .tenthYearOfPassing),
    ("12th %", .twelfthPercentage), ("12th Year of Passing", .twelfthYearOfPassing),
    ("Diploma %", .diplomaPercentage), ("Diploma YOP", .diplomaYOP), ("Degree", .degree),
    ("Stream (B.Tech Branch)", .stream), ("Degree %", .degreePercentage),
    ("Degree YOP", .degreeYOP), ("PG Degree", .pgDegree), ("PG Stream", .pgStream),
    ("Post Grad %", .postGradPercentage), ("PG YOP", .pgYOP),
    ("Whether having current backlog", .currentBacklog), ("Remarks", .remarks),
    ("Gender", .gender), ("Btech College State", .btechCollegeState),
    ("Btech Roll Number", .btechRollNumber), ("Refer By", .referBy) ]

/-- The line of the report for a label and a field: the label, a colon, a
blank and the value of the field. -/
def labelledLine (st : Student) (label : String) (f : Field) : String :=
  label ++ ": " ++ jsStr (st.get f)

/-- The lines the specification gives the report of a record. -/
def specReportLines (st : Student) : List String :=
  specReportLayout.map (fun lf => labelledLine st lf.1 lf.2)

/-- The unique index on `username` (line 91): no two stored users share a
username. -/
def UniqueUsernames (users : List User) : Prop :=
  users.Pairwise (fun a b => a.username ≠ b.username)

/-! ## Sample data -/

/-- An environment with a toy hash, used to evaluate the application. -/
def sampleEnv : Env where
  dirname := "/srv/app"
  bcryptHash := fun p => "H(" ++ p ++ ")"
  bcryptCompare := fun p h => h == "H(" ++ p ++ ")"
  canonicalize := Char.toUpper
  lineTerminator := fun c => c == '\n'

/-- A student document with every path absent. -/
def Student.blank : Student where
  srNo := none
  collegeName := none
  zone := none
  name := none
  email := none
  contactNumber := none
  tenthPercentage := none
  tenthYearOfPassing := none
  twelfthPercentage := none
  twelfthYearOfPassing := none
  diplomaPercentage := none
  diplomaYOP := none
  degree := none
  stream := none
  degreePercentage := none
  degreeYOP := none
  pgDegree := none
  pgStream := none
  postGradPercentage := none
  pgYOP := none
  currentBacklog := none
  remarks := none
  gender := none
  btechCollegeState := none
  btechRollNumber := none
  referBy := none
  pdf := none
  programType := none

def alice : User := { username := some "alice", password := "H(secret)" }

def asha : Student :=
  { Student.blank with srNo := some "7", name := some "Asha", collegeName := some "IIT Madras",
                       programType := some "MCA" }

def ravi : Student :=
  { Student.blank with srNo := some "8", name := some "Ravi", collegeName := some "nit trichy",
                       programType := some "mca" }

/-- A world with one user, two students and nobody logged in. -/
def guestWorld : World where
  students := [asha, ravi]
  users := [alice]
  session := none
  uploads := []
  reports := []
  dirs := ["/srv/app/reports", "/srv/app/uploads", "/srv/app/views"]
  dbUp := true
  clock := 1700000000000

/-- The same world with alice logged in. -/
def staffWorld : World := { guestWorld with session := some alice }

/-- A request with the given method, path, query and body, and no file part. -/
def mkRequest (method : Method) (path : String) (query body : List (String × String)) :
    Request where
  method := method
  path := path
  query := query
  body := body
  filePart := none
  file := none

/-- The record of asha with an attached document. -/
def ashaWithUpload : Student :=
  { asha with pdf := some "uploads/1700000000000-cv.pdf" }

/-! ## Theorems -/

/-! ### Paths -/

theorem splitSlash_ne_nil (l : List Char) : splitSlash l ≠ [] := by
  cases l with
  | nil => simp [splitSlash]
  | cons c cs =>
    unfold splitSlash
    split
    · simp
    · split <;> simp

theorem splitSlash_of_not_mem (l : List Char) (h : '/' ∉ l) : splitSlash l = [l] := by
  induction l with
  | nil => rfl
  | cons c cs ih =>
    have hc : c ≠ '/' := fun e => h (by simp [e])
    have hcs : '/' ∉ cs := fun e => h (List.mem_cons_of_mem _ e)
    simp [splitSlash, hc, ih hcs]

theorem splitSlash_append_slash (a b : List Char) :
    splitSlash (a ++ '/' :: b) = splitSlash a ++ splitSlash b := by
  induction a with
  | nil => simp [splitSlash]
  | cons c cs ih =>
    by_cases hc : c = '/'
    · simp [splitSlash, hc, ih]
    · simp only [List.cons_append, splitSlash, hc, if_false]
      have ih2 : splitSlash (List.append cs ('/' :: b)) = splitSlash cs ++ splitSlash b := ih
      rw [ih2]
      cases hs : splitSlash cs with
      | nil => exact absurd hs (splitSlash_ne_nil cs)
      | cons seg rest => simp

theorem joinSegs_snoc (l : List (List Char)) (hl : l ≠ []) (f : List Char) :
    joinSegs (l ++ [f]) = joinSegs l ++ '/' :: f := by
  induction l with
  | nil => exact absurd rfl hl
  | cons s t ih =>
    cases t with
    | nil => simp [joinSegs]
    | cons u r =>
      have := ih (by simp)
      simp only [List.cons_append] at this ⊢
      simp [joinSegs, this]

theorem joinSegs_snoc_ne_nil (l : List (List Char)) (f : List Char) (hf : f ≠ []) :
    joinSegs (l ++ [f]) ≠ [] := by
  by_cases hl : l = []
  · subst hl; simpa [joinSegs] using hf
  · rw [joinSegs_snoc l hl]; simp

theorem normStep_plain (b : Bool) (st : List (List Char)) (f : List Char)
    (h0 : f ≠ []) (h1 : f ≠ ['.']) (h2 : f ≠ ['.', '.']) : normStep b st f = f :: st := by
  simp [normStep, h0, h1, h2]

/-- Normalisation leaves a final plain segment in place after the normalised
path before it. -/
theorem normalizeChars_snoc (A F : List Char) (hA : A ≠ []) (hlast : A.getLast? ≠ some '/')
    (hbody : joinSegs (((splitSlash A).foldl
      (normStep (!decide (A.head? = some '/'))) []).reverse) ≠ [])
    (hF : '/' ∉ F) (h0 : F ≠ []) (h1 : F ≠ ['.']) (h2 : F ≠ ['.', '.']) :
    normalizeChars (A ++ '/' :: F) = normalizeChars A ++ '/' :: F := by
  have hne : A ++ '/' :: F ≠ [] := by simp
  have hhead : (A ++ '/' :: F).head? = A.head? := by
    cases A with
    | nil => exact absurd rfl hA
    | cons a t => rfl
  have hlastF : (A ++ '/' :: F).getLast? ≠ some '/' := by
    obtain ⟨x, hx⟩ : ∃ x, F.getLast? = some x := by
      cases hF1 : F.getLast? with
      | none => exact absurd (List.getLast?_eq_none_iff.1 hF1) h0
      | some x => exact ⟨x, rfl⟩
    have hxF : x ∈ F := List.mem_of_getLast?_eq_some hx
    have : (A ++ '/' :: F).getLast? = some x := by
      cases F with
      | nil => exact absurd rfl h0
      | cons y ys =>
        rw [List.getLast?_append, List.getLast?_cons_cons, hx]
        rfl
    rw [this]
    intro e
    simp at e
    exact hF (e ▸ hxF)
  have hst : ((splitSlash A).foldl (normStep (!decide (A.head? = some '/'))) []) ≠ [] := by
    intro e
    rw [e] at hbody
    exact hbody rfl
  simp only [normalizeChars, hne, hA, if_false, hhead, hlast, hlastF, hbody,
    splitSlash_append_slash, splitSlash_of_not_mem F hF, List.foldl_append, List.foldl_cons,
    List.foldl_nil, normStep_plain _ _ F h0 h1 h2, List.reverse_cons]
  rw [joinSegs_snoc _ (by simpa using hst)]
  simp

theorem reportFileName_data (s : String) :
    (reportFileName s).data = "student_report_".data ++ s.data ++ ".pdf".data := by
  simp [reportFileName, String.data_append]

theorem reportFileName_plain (s : String) (hs : '/' ∉ s.data) :
    '/' ∉ (reportFileName s).data ∧ (reportFileName s).data ≠ [] ∧
      (reportFileName s).data ≠ ['.'] ∧ (reportFileName s).data ≠ ['.', '.'] := by
  rw [reportFileName_data]
  refine ⟨?_, ?_, ?_, ?_⟩
  · simp only [List.mem_append, not_or]
    exact ⟨⟨by decide, hs⟩, by decide⟩
  · simp
  · intro h
    have := congrArg List.head? h
    simp at this
  · intro h
    have := congrArg List.head? h
    simp at this

theorem reportsDir_snoc (d F : List Char) (hF : '/' ∉ F) (h0 : F ≠ []) (h1 : F ≠ ['.'])
    (h2 : F ≠ ['.', '.']) :
    normalizeChars (joinSegs (([d, "reports".data, F]).filter (fun a => a ≠ []))) =
      normalizeChars (joinSegs (([d, "reports".data]).filter (fun a => a ≠ []))) ++ '/' :: F := by
  have hR : ("reports".data ≠ []) := by decide
  by_cases hd : d = []
  · subst hd
    simp only [List.filter, hR, h0, ne_eq, not_true_eq_false, decide_False, decide_True,
      not_false_eq_true, joinSegs]
    exact normalizeChars_snoc _ F (by decide) (by decide) (by decide) hF h0 h1 h2
  · simp only [List.filter, hR, h0, hd, ne_eq, decide_True, not_false_eq_true, joinSegs]
    have e : d ++ '/' :: ("reports".data ++ '/' :: F) =
        (d ++ '/' :: "reports".data) ++ '/' :: F := by
      simp
    rw [e]
    refine normalizeChars_snoc _ F (by simp) ?_ ?_ hF h0 h1 h2
    · have hl : ('/' :: "reports".data).getLast? = some 's' := by decide
      rw [List.getLast?_append, hl]
      simp
    · rw [splitSlash_append_slash, splitSlash_of_not_mem "reports".data (by decide),
        List.foldl_append]
      simp only [List.foldl_cons, List.foldl_nil]
      rw [normStep_plain _ _ _ (by decide) (by decide) (by decide), List.reverse_cons]
      exact joinSegs_snoc_ne_nil _ _ (by decide)

/-- For a serial number without a separator, the report path is the reports
directory, a separator and the file name. -/
theorem reportFilePath_eq (env : Env) (s : String) (hs : '/' ∉ s.data) :
    reportFilePath env s = pathJoin [env.dirname, "reports"] ++ "/" ++ reportFileName s := by
  obtain ⟨hF, h0, h1, h2⟩ := reportFileName_plain s hs
  have key := reportsDir_snoc env.dirname.data (reportFileName s).data hF h0 h1 h2
  have hR : ("reports".data ≠ []) := by decide
  apply String.ext
  by_cases hd : env.dirname.data = []
  · simp [reportFilePath, pathJoin, List.filter, hd, hR, h0, String.data_append] at key ⊢
    rw [key]
  · simp [reportFilePath, pathJoin, List.filter, hd, hR, h0, String.data_append] at key ⊢
    rw [key]

theorem dropWhile_append_stop (p : Char → Bool) (l r : List Char) (x : Char)
    (hl : ∀ y ∈ l, p y = true) (hx : p x = false) :
    (l ++ x :: r).dropWhile p = x :: r := by
  induction l with
  | nil => simp [List.dropWhile, hx]
  | cons a t ih =>
    have ha : p a = true := hl a (List.mem_cons_self _ _)
    simp only [List.cons_append, List.dropWhile, ha]
    exact ih (fun y hy => hl y (List.mem_cons_of_mem _ hy))

theorem pathDirname_snoc (a : Char) (t F : List Char) (hroot : a = '/' → t ≠ [])
    (hF : '/' ∉ F) (h0 : F ≠ []) :
    pathDirname (String.mk (a :: t ++ '/' :: F)) = String.mk (a :: t) := by
  obtain ⟨y, ys, hy⟩ : ∃ y ys, F.reverse = y :: ys := by
    cases h : F.reverse with
    | nil => exact absurd (List.reverse_eq_nil_iff.1 h) h0
    | cons y ys => exact ⟨y, ys, rfl⟩
  have hyF : ∀ z ∈ y :: ys, z ≠ '/' := by
    intro z hz e
    rw [← hy, List.mem_reverse] at hz
    exact hF (e ▸ hz)
  have hrev : (t ++ '/' :: F).reverse = (y :: ys) ++ '/' :: t.reverse := by
    simp [hy]
  have h1 : (y :: (ys ++ '/' :: t.reverse)).dropWhile (fun c => decide (c = '/')) =
      y :: (ys ++ '/' :: t.reverse) := by
    have : decide (y = '/') = false := by simpa using hyF y (List.mem_cons_self _ _)
    simp [List.dropWhile, this]
  have h2 : (y :: (ys ++ '/' :: t.reverse)).dropWhile (fun c => !decide (c = '/')) =
      '/' :: t.reverse :=
    dropWhile_append_stop _ (y :: ys) _ _ (fun z hz => by simpa using hyF z hz) (by simp)
  simp only [pathDirname, List.cons_append, hrev, ne_eq, decide_not]
  rw [h1, h2]
  by_cases ha : a = '/'
  · simp [ha, hroot ha]
  · simp [ha]


theorem joinSegs_snoc_ends (l : List (List Char)) (f : List Char) :
    ∃ pre, joinSegs (l ++ [f]) = pre ++ f := by
  by_cases hl : l = []
  · subst hl
    exact ⟨[], by simp [joinSegs]⟩
  · exact ⟨joinSegs l ++ ['/'], by rw [joinSegs_snoc l hl]; simp⟩

theorem normalizeChars_ends (A R : List Char) (st : List (List Char)) (hA : A ≠ [])
    (hlast : A.getLast? ≠ some '/') (hR : R ≠ [])
    (hstack : (splitSlash A).foldl (normStep (!decide (A.head? = some '/'))) [] = R :: st) :
    ∃ pre, normalizeChars A = pre ++ R := by
  obtain ⟨pre, hpre⟩ := joinSegs_snoc_ends st.reverse R
  have hbody : joinSegs (st.reverse ++ [R]) ≠ [] := joinSegs_snoc_ne_nil _ _ hR
  simp only [normalizeChars, hA, if_false, hlast, hstack, List.reverse_cons, hbody]
  rw [hpre]
  exact ⟨(if A.head? = some '/' then ['/'] else []) ++ pre, by simp⟩

theorem reportsDir_ends (d : List Char) :
    ∃ pre, normalizeChars (joinSegs (([d, "reports".data]).filter (fun a => a ≠ []))) =
      pre ++ "reports".data := by
  have hR : ("reports".data ≠ []) := by decide
  by_cases hd : d = []
  · subst hd
    exact ⟨[], by decide⟩
  · simp only [List.filter, hR, hd, ne_eq, decide_True, not_false_eq_true, joinSegs]
    refine normalizeChars_ends _ _
      ((splitSlash d).foldl
        (normStep (!decide ((d ++ '/' :: "reports".data).head? = some '/'))) [])
      (by simp) ?_ hR ?_
    · have hl : ('/' :: "reports".data).getLast? = some 's' := by decide
      rw [List.getLast?_append, hl]
      simp
    · rw [splitSlash_append_slash, splitSlash_of_not_mem "reports".data (by decide),
        List.foldl_append]
      simp only [List.foldl_cons, List.foldl_nil]
      rw [normStep_plain _ _ _ (by decide) (by decide) (by decide)]

/-- For a serial number without a separator, the directory of the report path
is the reports directory. -/
theorem pathDirname_reportFilePath (env : Env) (s : String) (hs : '/' ∉ s.data) :
    pathDirname (reportFilePath env s) = pathJoin [env.dirname, "reports"] := by
  obtain ⟨hF, h0, _, _⟩ := reportFileName_plain s hs
  obtain ⟨pre, hpre⟩ := reportsDir_ends env.dirname.data
  have hR : ("reports".data ≠ []) := by decide
  have hX : (pathJoin [env.dirname, "reports"]).data = pre ++ "reports".data := by
    by_cases hd : env.dirname.data = []
    · simp [pathJoin, List.filter, hd, hR] at hpre ⊢
      exact hpre
    · simp [pathJoin, List.filter, hd, hR] at hpre ⊢
      exact hpre
  obtain ⟨a, t, hat, ht⟩ : ∃ a t, (pathJoin [env.dirname, "reports"]).data = a :: t ∧ t ≠ [] := by
    have hlen : 7 ≤ (pathJoin [env.dirname, "reports"]).data.length := by
      rw [hX, List.length_append]
      have : ("reports".data).length = 7 := by decide
      omega
    cases hc : (pathJoin [env.dirname, "reports"]).data with
    | nil => rw [hc] at hlen; simp at hlen
    | cons a t =>
      refine ⟨a, t, rfl, ?_⟩
      intro e
      rw [hc, e] at hlen
      simp at hlen
  have e1 : reportFilePath env s = String.mk (a :: t ++ '/' :: (reportFileName s).data) := by
    rw [reportFilePath_eq env s hs]
    apply String.ext
    simp [String.data_append, hat]
  have e2 : pathJoin [env.dirname, "reports"] = String.mk (a :: t) := String.ext hat
  rw [e1, e2]
  exact pathDirname_snoc a t _ (fun _ => ht) hF h0

/-! ### Dispatch -/

theorem runChain_guard_unauthenticated (env : Env) (rest : List Handler) (req : Request)
    (w : World) (hs : w.session = none) :
    runChain env (Handler.isAuthenticated :: rest) req w =
      Step.done (Response.redirect "/login") w := by
  simp [runChain, runHandler, isAuthenticated, hs]

theorem accepts_iff (r : Route) (req : Request) :
    r.accepts req = true ↔ r.method = req.method ∧ r.path = req.path := by
  simp [Route.accepts]

theorem guarded_iff (r : Route) :
    r.guarded = true ↔ ∃ rest, r.handlers = Handler.isAuthenticated :: rest := by
  unfold Route.guarded
  cases h : r.handlers with
  | nil => simp
  | cons a t => simp

theorem dispatch_guard_unauthenticated (env : Env) (req : Request) (w : World)
    (hs : w.session = none) (rs : List Route)
    (hall : ∀ r ∈ rs, r.accepts req = true → r.guarded = true)
    (hex : ∃ r ∈ rs, r.accepts req = true) :
    dispatch env rs req w = some (Response.redirect "/login", w) := by
  induction rs with
  | nil => simp at hex
  | cons r rs ih =>
    by_cases hacc : r.accepts req = true
    · obtain ⟨rest, hrest⟩ := (guarded_iff r).1 (hall r (List.mem_cons_self _ _) hacc)
      simp [dispatch, hacc, hrest, runChain_guard_unauthenticated env rest req w hs]
    · have hex2 : ∃ r ∈ rs, r.accepts req = true := by
        obtain ⟨r1, hr1, ha1⟩ := hex
        rcases List.mem_cons.1 hr1 with h | h
        · subst h; exact absurd ha1 hacc
        · exact ⟨r1, h, ha1⟩
      simp only [dispatch, hacc]
      exact ih (fun r1 h1 => hall r1 (List.mem_cons_of_mem _ h1)) hex2

/-- Registrations of one method and path agree on being guarded. -/
theorem routes_guard_consistent :
    ∀ r1 ∈ routes, ∀ r2 ∈ routes, r1.method = r2.method → r1.path = r2.path →
      r1.guarded = true → r2.guarded = true := by
  decide


/-! ### Session guard -/

/-- C1: for every route registered with the session guard and every request
it accepts whose session holds no user, the application answers with the
redirect to /login and leaves the world (the student store included)
unchanged; the response is the same for any two contents of the student
store; the outcome is fixed by the guard, whatever handlers follow it in the
route; and the guarded registrations are the seven endpoints listed (the
report path being registered twice). -/
theorem guarded_route_unauthenticated (env : Env) (w : World) (req : Request) (r : Route)
    (hr : r ∈ routes) (hg : r.guarded = true) (hacc : r.accepts req = true)
    (hs : w.session = none) :
    app env req w = some (Response.redirect "/login", w)
    ∧ (∀ s1 s2 : List Student,
        (app env req { w with students := s1 }).map Prod.fst = some (Response.redirect "/login")
        ∧ (app env req { w with students := s1 }).map Prod.fst =
          (app env req { w with students := s2 }).map Prod.fst)
    ∧ (∃ rest, r.handlers = Handler.isAuthenticated :: rest
        ∧ ∀ other, runChain env (Handler.isAuthenticated :: other) req w =
            Step.done (Response.redirect "/login") w)
    ∧ (routes.filter Route.guarded).map (fun r => (r.method, r.path)) =
        [(Method.GET, "/"), (Method.GET, "/student/register"), (Method.GET, "/student/retrieve"),
         (Method.GET, "/student/report"), (Method.POST, "/student/register"),
         (Method.GET, "/student"), (Method.GET, "/student/filter"),
         (Method.GET, "/student/report")] := by
  have hall : ∀ r2 ∈ routes, r2.accepts req = true → r2.guarded = true := by
    intro r2 hr2 hacc2
    rw [accepts_iff] at hacc hacc2
    exact routes_guard_consistent r hr r2 hr2 (hacc.1.trans hacc2.1.symm)
      (hacc.2.trans hacc2.2.symm) hg
  have main : ∀ w1 : World, w1.session = none →
      app env req w1 = some (Response.redirect "/login", w1) := fun w1 h1 =>
    dispatch_guard_unauthenticated env req w1 h1 routes hall ⟨r, hr, hacc⟩
  refine ⟨main w hs, ?_, ?_, by decide⟩
  · intro s1 s2
    rw [main { w with students := s1 } hs, main { w with students := s2 } hs]
    exact ⟨rfl, rfl⟩
  · obtain ⟨rest, hrest⟩ := (guarded_iff r).1 hg
    exact ⟨rest, hrest, fun other => runChain_guard_unauthenticated env other req w hs⟩

theorem guarded_route_unauthenticated_witness :
    guestWorld.session = none
    ∧ app sampleEnv (mkRequest Method.GET "/student" [("srNo", "7")] []) guestWorld =
        some (Response.redirect "/login", guestWorld) :=
  ⟨rfl, (guarded_route_unauthenticated sampleEnv guestWorld
    (mkRequest Method.GET "/student" [("srNo", "7")] [])
    { method := Method.GET, path := "/student",
      handlers := [Handler.isAuthenticated, Handler.getStudent] }
    (by decide) (by decide) (by decide) rfl).1⟩


/-! ### Report route -/

/-- C6: every authenticated GET /student/report is completed by the first
registration of that path, the static page of line 127: the response is the
file download_report.html whether or not a record has the requested serial
number, it is neither the 404 answer nor a download, and nothing is written.
The report generator registered later at line 215 is never reached. -/
theorem report_request_gets_static_page (env : Env) (w : World) (req : Request)
    (hm : req.method = Method.GET) (hp : req.path = "/student/report")
    (hs : w.session.isSome = true) :
    app env req w =
      some (Response.sendFile (pathJoin [env.dirname, "views", "download_report.html"]), w)
    ∧ (app env req w).map Prod.fst ≠ some (Response.send 404 "Student not found")
    ∧ ∀ filePath fileName,
        (app env req w).map Prod.fst ≠ some (Response.download filePath fileName) := by
  have h : app env req w =
      some (Response.sendFile (pathJoin [env.dirname, "views", "download_report.html"]), w) := by
    simp [app, dispatch, routes, Route.accepts, hm, hp, runChain, runHandler, isAuthenticated,
      hs, sendView]
  rw [h]
  simp

theorem report_request_gets_static_page_witness :
    app sampleEnv (mkRequest Method.GET "/student/report" [("srNo", "404")] []) staffWorld =
      some (Response.sendFile "/srv/app/views/download_report.html", staffWorld)
    ∧ getReport sampleEnv (mkRequest Method.GET "/student/report" [("srNo", "404")] [])
        staffWorld = Step.done (Response.send 404 "Student not found") staffWorld :=
  ⟨(report_request_gets_static_page sampleEnv staffWorld
      (mkRequest Method.GET "/student/report" [("srNo", "404")] []) rfl rfl rfl).1,
    by rfl⟩


/-! ### Report generator -/

theorem renderReport_eq_spec (st : Student) : renderReport st = specReportLines st := by
  simp [renderReport, specReportLines, specReportLayout, labelledLine, PDFDocument.text,
    Student.get]

theorem readFile_writeFile_self (files : List (String × List String)) (path : String)
    (content : List String) : readFile (writeFile files path content) path = some content := by
  simp [readFile, writeFile, List.lookup]

theorem readFile_writeFile_of_ne (files : List (String × List String)) (path other : String)
    (content : List String) (h : other ≠ path) :
    readFile (writeFile files path content) other = readFile files other := by
  have hbeq : (other == path) = false := by simpa using h
  simp only [readFile, writeFile, List.lookup, hbeq]
  induction files with
  | nil => rfl
  | cons e t ih =>
    obtain ⟨k, v⟩ := e
    by_cases hk : k = path
    · subst hk
      have hb : (other == k) = false := by simpa using h
      simpa [List.filter, List.lookup, hb] using ih
    · by_cases ho : other = k
      · subst ho
        simp [List.filter, List.lookup, hk]
      · have hb : (other == k) = false := by simpa using ho
        simpa [List.filter, List.lookup, hk, hb] using ih

/-- C7, the defect: for every record found for serial number s, the store
answering and the directory of the report path in place, the report handler
writes into the file at the report path exactly the 26 lines of the fixed
layout, each a label, a colon, a blank and the value of the field of the
record (the word undefined for an absent value), in the fixed order of the
labels, and changes nothing else; but it sends no response at all. The
download under the name student_report_ s .pdf is registered on the event
finish of the document (line 253), which a readable stream does not emit, so
no download under any name takes place. For a serial number without a
separator the directory of the report path is the reports directory
(pathDirname_reportFilePath). -/
theorem report_handler_writes_but_never_answers (env : Env) (w : World) (req : Request)
    (s : String) (st : Student) (hdb : w.dbUp = true) (hq : req.query.lookup "srNo" = some s)
    (hf : findStudent w.students s = some st)
    (hdir : pathDirname (reportFilePath env s) ∈ w.dirs) :
    ∃ w1 : World, getReport env req w = Step.done Response.noResponse w1
      ∧ (∀ filePath fileName,
          getReport env req w ≠ Step.done (Response.download filePath fileName) w1)
      ∧ readFile w1.reports (reportFilePath env s) = some (renderReport st)
      ∧ (∀ other, other ≠ reportFilePath env s →
          readFile w1.reports other = readFile w.reports other)
      ∧ (renderReport st).length = 26
      ∧ (∀ (i : Nat) (label : String) (f : Field), specReportLayout[i]? = some (label, f) →
          (∀ v, st.get f = some v → (renderReport st)[i]? = some (label ++ ": " ++ v))
          ∧ (st.get f = none → (renderReport st)[i]? = some (label ++ ": undefined")))
      ∧ specReportLayout.map Prod.fst =
          ["Sr.No", "College Name", "Zone (State Name)", "Name", "Email ID", "Contact Number",
           "10th %", "10th Year of Passing", "12th %", "12th Year of Passing", "Diploma %",
           "Diploma YOP", "Degree", "Stream (B.Tech Branch)", "Degree %", "Degree YOP",
           "PG Degree", "PG Stream", "Post Grad %", "PG YOP", "Whether having current backlog",
           "Remarks", "Gender", "Btech College State", "Btech Roll Number", "Refer By"]
      ∧ w1.students = w.students ∧ w1.users = w.users ∧ w1.session = w.session := by
  have hrun : getReport env req w = Step.done Response.noResponse
      { w with reports := writeFile w.reports (reportFilePath env s) (renderReport st) } := by
    simp [getReport, hdb, hq, hf, hdir, readableEvents]
  refine ⟨_, hrun, ?_, readFile_writeFile_self _ _ _,
    fun other h => readFile_writeFile_of_ne _ _ _ _ h, ?_, ?_, by decide, rfl, rfl, rfl⟩
  · intro filePath fileName h
    rw [hrun] at h
    simp at h
  · simp [renderReport, PDFDocument.text]
  · intro i label f hi
    rw [renderReport_eq_spec, specReportLines, List.getElem?_map, hi]
    constructor
    · intro v hv
      simp [labelledLine, hv, jsStr]
    · intro hn
      have e : label ++ ": " ++ "undefined" = label ++ ": undefined" := by
        rw [String.append_assoc]
        rfl
      simp [labelledLine, hn, jsStr, e]

theorem report_handler_writes_but_never_answers_witness :
    staffWorld.dbUp = true
    ∧ findStudent staffWorld.students "7" = some asha
    ∧ pathDirname (reportFilePath sampleEnv "7") ∈ staffWorld.dirs
    ∧ ∃ w1 : World,
        getReport sampleEnv (mkRequest Method.GET "/student/report" [("srNo", "7")] [])
          staffWorld = Step.done Response.noResponse w1
        ∧ readFile w1.reports "/srv/app/reports/student_report_7.pdf" =
          some ["Sr.No: 7", "College Name: IIT Madras", "Zone (State Name): undefined",
            "Name: Asha", "Email ID: undefined", "Contact Number: undefined",
            "10th %: undefined", "10th Year of Passing: undefined", "12th %: undefined",
            "12th Year of Passing: undefined", "Diploma %: undefined", "Diploma YOP: undefined",
            "Degree: undefined", "Stream (B.Tech Branch): undefined", "Degree %: undefined",
            "Degree YOP: undefined", "PG Degree: undefined", "PG Stream: undefined",
            "Post Grad %: undefined", "PG YOP: undefined",
            "Whether having current backlog: undefined", "Remarks: undefined",
            "Gender: undefined", "Btech College State: undefined",
            "Btech Roll Number: undefined", "Refer By: undefined"] :=
  have hf : findStudent staffWorld.students "7" = some asha := by decide
  have hdir : pathDirname (reportFilePath sampleEnv "7") ∈ staffWorld.dirs := by decide
  ⟨rfl, hf, hdir,
    match report_handler_writes_but_never_answers sampleEnv staffWorld
      (mkRequest Method.GET "/student/report" [("srNo", "7")] []) "7" asha rfl rfl hf hdir with
    | ⟨w1, h1, _, h3, _⟩ => ⟨w1, h1, h3⟩⟩

theorem labelledLine_last (st : Student) (label : String) (f : Field) (v : String) (c : Char)
    (hv : st.get f = some v) (hc : v.data.getLast? = some c) :
    (labelledLine st label f).data.getLast? = some c := by
  unfold labelledLine
  rw [hv]
  simp only [jsStr, String.data_append]
  rw [List.getLast?_append, hc]
  rfl

/-- C8, refuted as stated: the report of a record with program type MCA has no
line made of a label, a colon, a blank and MCA, whatever the label; and the
report of a record with an attached document has no line carrying the path of
the document. -/
theorem report_omits_program_type_and_pdf :
    (¬ ∃ label : String, labelledLine asha label Field.programType ∈ renderReport asha)
    ∧ (¬ ∃ label : String,
        labelledLine ashaWithUpload label Field.pdf ∈ renderReport ashaWithUpload) := by
  constructor
  · rintro ⟨label, h⟩
    have h1 : ∀ line ∈ renderReport asha, line.data.getLast? ≠ some 'A' := by decide
    exact h1 _ h (labelledLine_last asha label Field.programType "MCA" 'A' rfl rfl)
  · rintro ⟨label, h⟩
    have h1 : ∀ line ∈ renderReport ashaWithUpload, line.data.getLast? ≠ some 'f' := by decide
    exact h1 _ h (labelledLine_last ashaWithUpload label Field.pdf
      "uploads/1700000000000-cv.pdf" 'f' rfl rfl)

theorem layout_has_field (f : Field) (h1 : f ≠ Field.pdf) (h2 : f ≠ Field.programType) :
    ∃ lf ∈ specReportLayout, lf.2 = f := by
  cases f <;> first | exact absurd rfl h1 | exact absurd rfl h2 | decide

/-- C8, amended: for every field of the schema other than pdf and programType
the report of a record has, at a position and under a label that depend on
the field only, the line carrying the value of that field, and the layout
names the field once. -/
theorem report_covers_layout_fields (f : Field) (h1 : f ≠ Field.pdf)
    (h2 : f ≠ Field.programType) :
    (∃ (label : String) (i : Nat), specReportLayout[i]? = some (label, f)
      ∧ ∀ st : Student, (renderReport st)[i]? = some (labelledLine st label f))
    ∧ (specReportLayout.map Prod.snd).count f = 1 := by
  refine ⟨?_, ?_⟩
  · obtain ⟨⟨label, g⟩, hmem, hg⟩ := layout_has_field f h1 h2
    simp only at hg
    subst hg
    obtain ⟨i, hi⟩ := List.getElem?_of_mem hmem
    refine ⟨label, i, hi, fun st => ?_⟩
    rw [renderReport_eq_spec, specReportLines, List.getElem?_map, hi]
    rfl
  · cases f <;> first | exact absurd rfl h1 | exact absurd rfl h2 | decide

theorem report_covers_layout_fields_witness :
    Field.srNo ≠ Field.pdf ∧ Field.srNo ≠ Field.programType
    ∧ (∃ (label : String) (i : Nat), specReportLayout[i]? = some (label, Field.srNo)
      ∧ ∀ st : Student, (renderReport st)[i]? = some (labelledLine st label Field.srNo)) :=
  ⟨by decide, by decide,
    (report_covers_layout_fields Field.srNo (by decide) (by decide)).1⟩


/-! ### Filter -/

theorem matchHere_literal (env : Env) (c s : List Char) (hc : ∀ x ∈ c, x ≠ '.') :
    matchHere env (c.map toAtom) s = true ↔
      (c.map env.canonicalize) <+: (s.map env.canonicalize) := by
  induction c generalizing s with
  | nil => simp [matchHere]
  | cons x xs ih =>
    have hx : x ≠ '.' := hc x (List.mem_cons_self _ _)
    have hxs : ∀ y ∈ xs, y ≠ '.' := fun y hy => hc y (List.mem_cons_of_mem _ hy)
    cases s with
    | nil => simp [matchHere]
    | cons y ys =>
      simp only [List.map_cons, matchHere, toAtom, hx, if_false, atomMatches, Bool.and_eq_true,
        beq_iff_eq, List.cons_prefix_cons, ih ys hxs]
      constructor <;> rintro ⟨a, b⟩ <;> exact ⟨a.symm, b⟩

theorem regexSearch_literal (env : Env) (c s : List Char) (hc : ∀ x ∈ c, x ≠ '.') :
    regexSearch env (c.map toAtom) s = true ↔
      (c.map env.canonicalize) <:+: (s.map env.canonicalize) := by
  induction s with
  | nil =>
    simp only [regexSearch, matchHere_literal env c [] hc]
    simp
  | cons y ys ih =>
    simp only [regexSearch, Bool.or_eq_true, matchHere_literal env c (y :: ys) hc, ih,
      List.map_cons, List.infix_cons_iff]

theorem compileRegExp_literal (c : List Char) (hlit : ∀ ch ∈ c, ch ∉ patternSpecials) :
    compileRegExp c = Compiled.ok (c.map toAtom) := by
  cases c with
  | nil => rfl
  | cons x xs =>
    have hx : x ∉ patternSpecials := hlit x (List.mem_cons_self _ _)
    have h1 : x ≠ '*' := fun e => hx (by rw [e]; decide)
    have h2 : x ≠ '+' := fun e => hx (by rw [e]; decide)
    have h3 : x ≠ '?' := fun e => hx (by rw [e]; decide)
    have hall : (x :: xs).all (fun y => decide (y = '.' ∨ y ∉ patternSpecials)) = true := by
      rw [List.all_eq_true]
      intro y hy
      exact decide_eq_true (Or.inr (hlit y hy))
    simp only [compileRegExp, h1, h2, h3, or_self, if_false, hall, if_true]

/-- C4: for every student store and every non-empty string p, an authenticated
GET /student/filter with filterProgramType = p and no filterCollege, the
store answering, returns exactly the records whose programType is equal to p,
in store order, and leaves the world unchanged. -/
theorem filter_by_program_type (env : Env) (w : World) (req : Request) (p : String)
    (hm : req.method = Method.GET) (hp : req.path = "/student/filter")
    (hs : w.session.isSome = true) (hdb : w.dbUp = true)
    (hc : req.query.lookup "filterCollege" = none)
    (hpq : req.query.lookup "filterProgramType" = some p) (hne : p ≠ "") :
    app env req w =
      some (Response.jsonList (w.students.filter (fun st => decide (st.programType = some p))),
        w) := by
  have hfun : matchesFilter env none (some p) = fun st => decide (st.programType = some p) := by
    funext st
    simp [matchesFilter]
  simp [app, dispatch, routes, Route.accepts, hm, hp, runChain, runHandler, isAuthenticated,
    hs, getFilter, collegeFilter, truthy, hc, hpq, hne, hdb, hfun]

theorem filter_by_program_type_witness :
    app sampleEnv (mkRequest Method.GET "/student/filter" [("filterProgramType", "MCA")] [])
      staffWorld = some (Response.jsonList [asha], staffWorld) :=
  filter_by_program_type sampleEnv staffWorld
    (mkRequest Method.GET "/student/filter" [("filterProgramType", "MCA")] []) "MCA"
    rfl rfl rfl rfl rfl rfl (by decide)

/-- C3, refuted as stated: with filterCollege a single dot the filter returns
both stored records although no college name contains a dot, and with
filterCollege a single asterisk the response is the error 500 instead of the
(empty) list of records whose college name contains an asterisk. -/
theorem college_filter_reads_pattern :
    app sampleEnv (mkRequest Method.GET "/student/filter" [("filterCollege", ".")] [])
        staffWorld = some (Response.jsonList [asha, ravi], staffWorld)
    ∧ staffWorld.students.filter (collegeContains sampleEnv.canonicalize ".") = []
    ∧ app sampleEnv (mkRequest Method.GET "/student/filter" [("filterCollege", "*")] [])
        staffWorld = some (Response.send 500 "Error filtering students", staffWorld)
    ∧ staffWorld.students.filter (collegeContains sampleEnv.canonicalize "*") = [] := by
  refine ⟨rfl, by decide, rfl, by decide⟩

/-- C3, amended: for every student store and every non-empty string c made of
characters other than the syntax characters of regular expressions, an
authenticated GET /student/filter with filterCollege = c and no
filterProgramType, the store answering, returns exactly the records whose
collegeName contains c as a substring, compared case-insensitively. -/
theorem filter_by_college_literal (env : Env) (w : World) (req : Request) (c : String)
    (hm : req.method = Method.GET) (hp : req.path = "/student/filter")
    (hs : w.session.isSome = true) (hdb : w.dbUp = true)
    (hc : req.query.lookup "filterCollege" = some c) (hne : c ≠ "")
    (hlit : ∀ ch ∈ c.data, ch ∉ patternSpecials)
    (hpq : req.query.lookup "filterProgramType" = none) :
    app env req w =
      some (Response.jsonList (w.students.filter (collegeContains env.canonicalize c)), w) := by
  have hdot : ∀ x ∈ c.data, x ≠ '.' := fun x hx e => hlit x hx (by rw [e]; decide)
  have hfilter : ∀ st : Student,
      matchesFilter env (some (c.data.map toAtom)) none st = collegeContains env.canonicalize c st := by
    intro st
    cases hn : st.collegeName with
    | none => simp [matchesFilter, collegeContains, hn]
    | some name =>
      simp only [matchesFilter, collegeContains, hn, Bool.and_true, containsIgnoreCase]
      rw [Bool.eq_iff_iff, regexSearch_literal env c.data name.data hdot]
      simp
  have hfun : matchesFilter env (some (c.data.map toAtom)) none =
      collegeContains env.canonicalize c := funext hfilter
  simp [app, dispatch, routes, Route.accepts, hm, hp, runChain, runHandler, isAuthenticated,
    hs, getFilter, collegeFilter, truthy, hc, hpq, hne, hdb, compileRegExp_literal c.data hlit,
    hfun]

theorem filter_by_college_literal_witness :
    (∀ ch ∈ "iit".data, ch ∉ patternSpecials)
    ∧ app sampleEnv (mkRequest Method.GET "/student/filter" [("filterCollege", "iit")] [])
      staffWorld = some (Response.jsonList [asha], staffWorld) :=
  ⟨by decide, filter_by_college_literal sampleEnv staffWorld
    (mkRequest Method.GET "/student/filter" [("filterCollege", "iit")] []) "iit"
    rfl rfl rfl rfl rfl (by decide) (by decide) rfl⟩


/-! ### Report paths -/

/-- C9, refuted as stated: two distinct serial numbers are given one and the
same report path, and a serial number with parent segments is given a path
outside the reports directory. -/
theorem report_paths_collide_and_escape :
    ("a/../x" : String) ≠ "b/../x"
    ∧ reportFilePath sampleEnv "a/../x" = "/srv/app/reports/x.pdf"
    ∧ reportFilePath sampleEnv "b/../x" = "/srv/app/reports/x.pdf"
    ∧ reportFilePath sampleEnv "/../../etc/x" = "/srv/app/etc/x.pdf"
    ∧ pathJoin [sampleEnv.dirname, "reports"] = "/srv/app/reports" := by
  refine ⟨by decide, by decide, by decide, by decide, by decide⟩

/-- C9, amended: for every two distinct serial numbers that contain no path
separator, the paths the report handler writes to are different, and each is
the reports directory followed by a separator and the file name
student_report_ s .pdf, which has no separator: the file lies directly inside
the reports directory. -/
theorem report_paths_distinct (env : Env) (s1 s2 : String) (h1 : '/' ∉ s1.data)
    (h2 : '/' ∉ s2.data) (hne : s1 ≠ s2) :
    reportFilePath env s1 ≠ reportFilePath env s2
    ∧ reportFilePath env s1 = pathJoin [env.dirname, "reports"] ++ "/" ++ reportFileName s1
    ∧ '/' ∉ (reportFileName s1).data := by
  refine ⟨?_, reportFilePath_eq env s1 h1, (reportFileName_plain s1 h1).1⟩
  intro h
  rw [reportFilePath_eq env s1 h1, reportFilePath_eq env s2 h2] at h
  have hd := congrArg String.data h
  simp only [String.data_append, reportFileName_data, List.append_assoc,
    List.append_cancel_left_eq, List.append_cancel_right_eq] at hd
  exact hne (String.ext hd)

theorem report_paths_distinct_witness :
    '/' ∉ ("7" : String).data ∧ '/' ∉ ("8" : String).data ∧ ("7" : String) ≠ "8"
    ∧ reportFilePath sampleEnv "7" ≠ reportFilePath sampleEnv "8" :=
  ⟨by decide, by decide, by decide,
    (report_paths_distinct sampleEnv "7" "8" (by decide) (by decide) (by decide)).1⟩

/-! ### Login -/

theorem findUser_some (users : List User) (name : String) (user : User)
    (h : findUser users name = some user) : user ∈ users ∧ user.username = some name := by
  unfold findUser at h
  exact ⟨List.mem_of_find?_eq_some h, by simpa using List.find?_some h⟩

theorem findUser_of_mem (users : List User) (hu : UniqueUsernames users) (user : User)
    (hmem : user ∈ users) (name : String) (hname : user.username = some name) :
    findUser users name = some user := by
  induction users with
  | nil => simp at hmem
  | cons a t ih =>
    unfold UniqueUsernames at hu
    rw [List.pairwise_cons] at hu
    rcases List.mem_cons.1 hmem with h | h
    · subst h
      simp [findUser, hname]
    · have hne : a.username ≠ some name := fun e => hu.1 user h (e.trans hname.symm)
      have := ih hu.2 h
      simp only [findUser, List.find?_cons, hne, decide_False] at this ⊢
      exact this

/-- The login route in closed form, for a request with both credentials and an
answering store. -/
theorem app_login_eq (env : Env) (w : World) (req : Request) (u p : String)
    (hm : req.method = Method.POST) (hp : req.path = "/login")
    (hu : req.body.lookup "username" = some u) (hpw : req.body.lookup "password" = some p)
    (hdb : w.dbUp = true) :
    app env req w =
      match findUser w.users u with
      | some user =>
        if env.bcryptCompare p user.password = true then
          some (Response.redirect "/", { w with session := some user })
        else some (Response.send 401 "Invalid credentials", w)
      | none => some (Response.send 401 "User not found", w) := by
  simp only [app, dispatch, routes, Route.accepts, hm, hp, runChain, runHandler, postLogin,
    hu, hpw, hdb]
  cases findUser w.users u with
  | none => simp
  | some user =>
    by_cases hc : env.bcryptCompare p user.password = true
    · simp [hc]
    · simp [hc]


/-- C2, refuted as stated: a wrong password for the stored user alice and a
login as the unknown user bob get different responses, both of status 401:
the body is Invalid credentials for the one and User not found for the
other. -/
theorem login_failures_distinguishable :
    app sampleEnv
        (mkRequest Method.POST "/login" [] [("username", "alice"), ("password", "wrong")])
        guestWorld = some (Response.send 401 "Invalid credentials", guestWorld)
    ∧ app sampleEnv
        (mkRequest Method.POST "/login" [] [("username", "bob"), ("password", "wrong")])
        guestWorld = some (Response.send 401 "User not found", guestWorld)
    ∧ Response.send 401 "Invalid credentials" ≠ Response.send 401 "User not found" := by
  refine ⟨rfl, rfl, by decide⟩

/-- C2, amended: for every user store with unique usernames and an answering
store, POST /login with the username of a stored user and a password that does
not match its hash, and POST /login with a username that is not in the store,
both get status 401 and leave the world (the session included) unchanged; the
body is Invalid credentials in the first case and User not found in the
second. -/
theorem login_failure_responses (env : Env) (w : World) (req1 req2 : Request)
    (u1 u2 p1 p2 : String) (user : User)
    (hm1 : req1.method = Method.POST) (hp1 : req1.path = "/login")
    (hu1 : req1.body.lookup "username" = some u1) (hpw1 : req1.body.lookup "password" = some p1)
    (hm2 : req2.method = Method.POST) (hp2 : req2.path = "/login")
    (hu2 : req2.body.lookup "username" = some u2) (hpw2 : req2.body.lookup "password" = some p2)
    (hdb : w.dbUp = true) (huniq : UniqueUsernames w.users)
    (hmem : user ∈ w.users) (hname : user.username = some u1)
    (hbad : env.bcryptCompare p1 user.password = false)
    (habsent : ∀ x ∈ w.users, x.username ≠ some u2) :
    app env req1 w = some (Response.send 401 "Invalid credentials", w)
    ∧ app env req2 w = some (Response.send 401 "User not found", w) := by
  constructor
  · rw [app_login_eq env w req1 u1 p1 hm1 hp1 hu1 hpw1 hdb,
      findUser_of_mem w.users huniq user hmem u1 hname]
    simp [hbad]
  · rw [app_login_eq env w req2 u2 p2 hm2 hp2 hu2 hpw2 hdb]
    cases h : findUser w.users u2 with
    | none => rfl
    | some x =>
      exact absurd (findUser_some w.users u2 x h).2 (habsent x (findUser_some w.users u2 x h).1)

theorem login_failure_responses_witness :
    UniqueUsernames guestWorld.users ∧ alice ∈ guestWorld.users
    ∧ sampleEnv.bcryptCompare "wrong" alice.password = false
    ∧ (∀ x ∈ guestWorld.users, x.username ≠ some "bob")
    ∧ app sampleEnv
        (mkRequest Method.POST "/login" [] [("username", "alice"), ("password", "wrong")])
        guestWorld = some (Response.send 401 "Invalid credentials", guestWorld)
    ∧ app sampleEnv
        (mkRequest Method.POST "/login" [] [("username", "bob"), ("password", "nope")])
        guestWorld = some (Response.send 401 "User not found", guestWorld) :=
  have hu : UniqueUsernames guestWorld.users := by
    simp [UniqueUsernames, guestWorld]
  have hm : alice ∈ guestWorld.users := by simp [guestWorld]
  have hb : sampleEnv.bcryptCompare "wrong" alice.password = false := by decide
  have ha : ∀ x ∈ guestWorld.users, x.username ≠ some "bob" := by
    simp [guestWorld, alice]
  ⟨hu, hm, hb, ha,
    login_failure_responses sampleEnv guestWorld
      (mkRequest Method.POST "/login" [] [("username", "alice"), ("password", "wrong")])
      (mkRequest Method.POST "/login" [] [("username", "bob"), ("password", "nope")])
      "alice" "bob" "wrong" "nope" alice rfl rfl rfl rfl rfl rfl rfl rfl rfl hu hm rfl hb ha⟩

/-- C10: for every user store with unique usernames, username u and password
p, the store answering, POST /login sets the user of the session to the stored
user named u and redirects to / when p matches the hash of that user; a
redirect to / happens only then; and in every other case the response has
status 401 and the world, the user of the session included, is unchanged. -/
theorem login_success_iff (env : Env) (w : World) (req : Request) (u p : String)
    (hm : req.method = Method.POST) (hp : req.path = "/login")
    (hu : req.body.lookup "username" = some u) (hpw : req.body.lookup "password" = some p)
    (hdb : w.dbUp = true) (huniq : UniqueUsernames w.users) :
    (∀ user ∈ w.users, user.username = some u → env.bcryptCompare p user.password = true →
        app env req w = some (Response.redirect "/", { w with session := some user }))
    ∧ (∀ w1, app env req w = some (Response.redirect "/", w1) →
        ∃ user ∈ w.users, user.username = some u ∧ env.bcryptCompare p user.password = true
          ∧ w1 = { w with session := some user })
    ∧ ((¬ ∃ user ∈ w.users, user.username = some u ∧ env.bcryptCompare p user.password = true) →
        ∃ msg, app env req w = some (Response.send 401 msg, w)) := by
  have key := app_login_eq env w req u p hm hp hu hpw hdb
  refine ⟨?_, ?_, ?_⟩
  · intro user hmem hname hmatch
    rw [key, findUser_of_mem w.users huniq user hmem u hname]
    simp [hmatch]
  · intro w1 h
    rw [key] at h
    cases hf : findUser w.users u with
    | none => simp [hf] at h
    | some user =>
      obtain ⟨hmem, hname⟩ := findUser_some w.users u user hf
      by_cases hc : env.bcryptCompare p user.password = true
      · simp [hf, hc] at h
        exact ⟨user, hmem, hname, hc, h.symm⟩
      · simp [hf, hc] at h
  · intro hno
    rw [key]
    cases hf : findUser w.users u with
    | none => exact ⟨_, rfl⟩
    | some user =>
      obtain ⟨hmem, hname⟩ := findUser_some w.users u user hf
      have hc : ¬ env.bcryptCompare p user.password = true := fun hc =>
        hno ⟨user, hmem, hname, hc⟩
      exact ⟨"Invalid credentials", by simp [hc]⟩

theorem login_success_iff_witness :
    UniqueUsernames guestWorld.users
    ∧ app sampleEnv
        (mkRequest Method.POST "/login" [] [("username", "alice"), ("password", "secret")])
        guestWorld = some (Response.redirect "/", { guestWorld with session := some alice }) :=
  have hu : UniqueUsernames guestWorld.users := by
    simp [UniqueUsernames, guestWorld]
  ⟨hu, (login_success_iff sampleEnv guestWorld
    (mkRequest Method.POST "/login" [] [("username", "alice"), ("password", "secret")])
    "alice" "secret" rfl rfl rfl rfl rfl hu).1 alice (by simp [guestWorld]) rfl (by decide)⟩


/-! ### Registration and retrieval -/

theorem ofObject_get (obj : String → Option String) (f : Field) :
    (Student.ofObject obj).get f = obj f.key := by
  cases f <;> rfl

theorem key_ne_pdf (f : Field) (h : f ≠ Field.pdf) : f.key ≠ "pdf" := by
  cases f <;> first | exact absurd rfl h | decide

/-- The retrieval route in closed form, for an authenticated request with a
serial number and an answering store. -/
theorem app_getStudent_eq (env : Env) (w : World) (req : Request) (s : String)
    (hm : req.method = Method.GET) (hp : req.path = "/student")
    (hs : w.session.isSome = true) (hdb : w.dbUp = true)
    (hq : req.query.lookup "srNo" = some s) :
    app env req w =
      match findStudent w.students s with
      | some st => some (Response.jsonRecord st, w)
      | none => some (Response.send 404 "Student not found", w) := by
  cases hf : findStudent w.students s <;>
    simp [app, dispatch, routes, Route.accepts, hm, hp, runChain, runHandler, isAuthenticated,
      hs, getStudent, hq, hdb, hf]

/-- The registration route in closed form, for an authenticated request and an
answering store: the document built from the body is appended to the store. -/
theorem app_register_eq (env : Env) (w : World) (req : Request)
    (hm : req.method = Method.POST) (hp : req.path = "/student/register")
    (hs : w.session.isSome = true) (hdb : w.dbUp = true) :
    ∃ (pdfPath : String) (uploads : List String),
      app env req w = some (Response.send 200 "Student registered successfully",
        { w with
          students := w.students ++ [Student.ofObject
            (fun key => if key = "pdf" then some pdfPath else req.body.lookup key)],
          uploads := uploads }) := by
  cases hfp : req.filePart with
  | none =>
    refine ⟨(match req.file with | some path => path | none => ""), w.uploads, ?_⟩
    simp [app, dispatch, routes, Route.accepts, hm, hp, runChain, runHandler, isAuthenticated,
      hs, uploadSinglePdf, hfp, postRegister, hdb]
  | some originalname =>
    refine ⟨pathJoin ["uploads/", toString w.clock ++ "-" ++ originalname],
      pathJoin ["uploads/", toString w.clock ++ "-" ++ originalname] :: w.uploads, ?_⟩
    simp [app, dispatch, routes, Route.accepts, hm, hp, runChain, runHandler, isAuthenticated,
      hs, uploadSinglePdf, hfp, postRegister, hdb]

theorem findStudent_append_fresh (students : List Student) (st : Student) (s : String)
    (hfresh : ∀ x ∈ students, x.srNo ≠ some s) (hst : st.srNo = some s) :
    findStudent (students ++ [st]) s = some st := by
  have hnone : students.find? (fun x => decide (x.srNo = some s)) = none := by
    rw [List.find?_eq_none]
    intro x hx
    simpa using hfresh x hx
  simp [findStudent, List.find?_append, hnone, hst]

/-- C5, refuted as stated: in a store that already holds a record with serial
number 7 (name Asha), registering a submission with serial number 7 and name
Meena succeeds, and retrieving serial number 7 afterwards returns the older
record, whose name is Asha and not the submitted Meena. -/
theorem roundtrip_fails_for_taken_srNo :
    ∃ w1, app sampleEnv
        (mkRequest Method.POST "/student/register" [] [("srNo", "7"), ("name", "Meena")])
        staffWorld = some (Response.send 200 "Student registered successfully", w1)
      ∧ app sampleEnv (mkRequest Method.GET "/student" [("srNo", "7")] []) w1 =
          some (Response.jsonRecord asha, w1)
      ∧ asha.get Field.name = some "Asha"
      ∧ List.lookup "name" [("srNo", "7"), ("name", "Meena")] = some "Meena" :=
  ⟨_, rfl, rfl, rfl, rfl⟩

/-- C5, amended: for every student store in which no record has serial number
s, after an authenticated POST /student/register of a submission with serial
number s (which succeeds when the store answers), GET /student?srNo=s returns
the registered record, in which every field of the schema other than pdf has
the submitted value (absent when not submitted); the record is the last of the
store. -/
theorem register_then_retrieve (env : Env) (w : World) (reg get : Request) (s : String)
    (hm1 : reg.method = Method.POST) (hp1 : reg.path = "/student/register")
    (hm2 : get.method = Method.GET) (hp2 : get.path = "/student")
    (hs : w.session.isSome = true) (hdb : w.dbUp = true)
    (hsr : reg.body.lookup "srNo" = some s) (hq : get.query.lookup "srNo" = some s)
    (hfresh : ∀ st ∈ w.students, st.srNo ≠ some s) :
    ∃ w1 st, app env reg w = some (Response.send 200 "Student registered successfully", w1)
      ∧ app env get w1 = some (Response.jsonRecord st, w1)
      ∧ (∀ f : Field, f ≠ Field.pdf → st.get f = reg.body.lookup f.key)
      ∧ w1.students = w.students ++ [st] := by
  obtain ⟨pdfPath, uploads, hreg⟩ := app_register_eq env w reg hm1 hp1 hs hdb
  have hst : (Student.ofObject
      (fun key => if key = "pdf" then some pdfPath else reg.body.lookup key)).srNo = some s := by
    simp [Student.ofObject, hsr]
  have hget := app_getStudent_eq env
    { w with
      students := w.students ++ [Student.ofObject
        (fun key => if key = "pdf" then some pdfPath else reg.body.lookup key)],
      uploads := uploads } get s hm2 hp2 hs hdb hq
  simp only [findStudent_append_fresh w.students _ s hfresh hst] at hget
  refine ⟨_, _, hreg, hget, ?_, rfl⟩
  intro f hf
  rw [ofObject_get]
  simp [key_ne_pdf f hf]

theorem register_then_retrieve_witness :
    (∀ st ∈ staffWorld.students, st.srNo ≠ some "9")
    ∧ ∃ w1 st, app sampleEnv
        (mkRequest Method.POST "/student/register" [] [("srNo", "9"), ("name", "Meena")])
        staffWorld = some (Response.send 200 "Student registered successfully", w1)
      ∧ app sampleEnv (mkRequest Method.GET "/student" [("srNo", "9")] []) w1 =
          some (Response.jsonRecord st, w1)
      ∧ (∀ f : Field, f ≠ Field.pdf →
          st.get f = List.lookup f.key [("srNo", "9"), ("name", "Meena")])
      ∧ w1.students = staffWorld.students ++ [st] :=
  have hfresh : ∀ st ∈ staffWorld.students, st.srNo ≠ some "9" := by decide
  ⟨hfresh, register_then_retrieve sampleEnv staffWorld
    (mkRequest Method.POST "/student/register" [] [("srNo", "9"), ("name", "Meena")])
    (mkRequest Method.GET "/student" [("srNo", "9")] []) "9" rfl rfl rfl rfl rfl rfl rfl rfl
    hfresh⟩

end StudentApp
